import Mathlib

/-!
Shallow embedding of the svg2img header-only library
(src/include/svg2img.h). The pure helpers GetImageHeader and
GetImageFormat are translated directly at the byte level. The EM_JS
browser pipeline is modeled as a deterministic trace-producing function
over a host-environment oracle (HostEnv) that fixes the outcome of every
asynchronous browser step of one request.
-/

namespace raster

/-- Bytes of a std::string_view, as values below 256. -/
abbrev Byte := Fin 256

/-- Rasterization errors, mirroring enum class Error in svg2img.h. -/
inductive Error : Type where
  | None
  | NoInputData
  | UriEncodingFailed
  | ImgLoadingFailed
  | CanvasDrawingFailed
  | BlobExportFailed
  deriving DecidableEq

/-- Raster formats, mirroring enum class Format in svg2img.h. -/
inductive Format : Type where
  | Png
  | Jpeg
  | Webp
  | Unknown
  deriving DecidableEq

/-- Upper-case hex digit of a value below 16, as printed by the 02X upper-case hex format. -/
def hexDigit (n : Nat) : Char :=
  if n < 10 then Char.ofNat (48 + n) else Char.ofNat (55 + n)

/-- The two chars a byte contributes under the 02X upper-case hex format. -/
def byteHexChars (b : Byte) : List Char :=
  [hexDigit (b.val / 16), hexDigit (b.val % 16)]

/-- raster::GetImageHeader. The ostringstream accumulates two hex chars and
one space per byte of the range clipped to the buffer; pop_back on a
non-empty result removes the trailing space. Translated at the char
level: the stream content is a char list and pop_back is dropLast. -/
def GetImageHeader (img : List Byte) (pos : Nat) (n : Nat) : String :=
  let b := min pos img.length
  let e := min (pos + n) img.length
  let slice := (img.drop b).take (e - b)
  let header := (slice.map (fun ch => byteHexChars ch ++ [' '])).flatten
  if header.isEmpty then String.mk header else String.mk header.dropLast

/-- The png signature literal of raster::GetImageFormat. -/
def png_sig : String := "89 50 4E 47 0D 0A 1A 0A"

/-- The jpeg signature literal of raster::GetImageFormat. -/
def jpeg_sig : String := "FF D8"

/-- The riff signature literal of raster::GetImageFormat. -/
def riff_sig : String := "52 49 46 46"

/-- The webp signature literal of raster::GetImageFormat. -/
def webp_sig : String := "57 45 42 50"

/-- raster::GetImageFormat: deduces the image format by hex header match. -/
def GetImageFormat (img : List Byte) : Format :=
  if GetImageHeader img 0 8 = png_sig then Format.Png
  else if GetImageHeader img 0 2 = jpeg_sig then Format.Jpeg
  else if GetImageHeader img 0 4 = riff_sig ∧ GetImageHeader img 8 4 = webp_sig then
    Format.Webp
  else Format.Unknown

/-- The png magic as bytes. -/
def pngMagic : List Byte := [0x89, 0x50, 0x4E, 0x47, 0x0D, 0x0A, 0x1A, 0x0A]

/-- The jpeg magic as bytes. -/
def jpegMagic : List Byte := [0xFF, 0xD8]

/-- The riff magic as bytes. -/
def riffMagic : List Byte := [0x52, 0x49, 0x46, 0x46]

/-- The webp magic as bytes. -/
def webpMagic : List Byte := [0x57, 0x45, 0x42, 0x50]

/-- Reference rendering of a byte list as upper-case hex pairs separated by
single spaces: the flattened intersperse of the per-byte char pairs. -/
def joinChars (l : List Byte) : List Char :=
  (List.intersperse [' '] (l.map byteHexChars)).flatten

/-- The char contribution of a byte list after the leading pair: one space
then the two hex chars, per byte. -/
def tailChars (l : List Byte) : List Char :=
  l.flatMap (fun b => ' ' :: byteHexChars b)

namespace aux

/-- Oracle fixing the outcome of every asynchronous browser step of one
request: whether encodeURIComponent succeeds, whether the img element
loads, the natural size of the decoded image, whether drawImage and
toBlob succeed, the blob toBlob delivers (none models a null blob),
whether reading the blob bytes resolves, and whether the user callback
throws when invoked. -/
structure HostEnv where
  encodeOk : Bool
  loadOk : Bool
  natW : Nat
  natH : Nat
  drawOk : Bool
  toBlobOk : Bool
  blob : Option (List Byte)
  readOk : Bool
  cbThrows : Bool

/-- Observable events of one request, in program order: heap handle
creation and deletion, callback invocation with its view and error,
malloc and free of the transient buffer, the alert on a throwing
callback, stage entries, and the canvas sizing plus drawImage calls. -/
inductive Event : Type where
  | newHandle
  | cbInvoke (view : List Byte) (err : Error)
  | deleteHandle
  | alloc (n : Nat)
  | free
  | alert
  | stageEncode
  | stageLoad
  | stageDraw
  | stageExport
  | canvasSize (w h : Nat)
  | draw4 (x y : Int) (w h : Nat)
  | draw2 (x y : Int)
  deriving DecidableEq

/-- raster::aux::ExecCb: copies the callback from the heap handle, invokes
it with the view over (data, size) when data is non-null and size is positive
and with an empty view otherwise, then deletes the handle. A throwing
callback skips the delete, because the exception propagates before it
runs. Returns whether the callback threw, with the event trace. -/
def ExecCb (env : HostEnv) (data : Option (List Byte)) (size : Nat) (err : Error) :
    Bool × List Event :=
  let view : List Byte :=
    match data with
    | some buf => if 0 < size then buf.take size else []
    | none => []
  (env.cbThrows, Event.cbInvoke view err :: if env.cbThrows then [] else [Event.deleteHandle])

/-- The JS helper failed(err): ccall of ExecCb with null data and size 0. -/
def failed (env : HostEnv) (err : Error) : List Event :=
  (ExecCb env none 0 err).2

/-- The JS helper loadImage(buf): malloc a buffer of the byte count, copy
the bytes in, then try: ccall ExecCb; catch: alert; finally: free. -/
def loadImage (env : HostEnv) (buf : List Byte) : List Event :=
  let r := ExecCb env (some buf) buf.length Error.None
  Event.alloc buf.length :: r.2 ++ (if r.1 then [Event.alert] else []) ++ [Event.free]

/-- The JS helper processBlob(blob): a null blob fails with
BlobExportFailed. Any Blob object, the empty blob included, is truthy,
so it proceeds to read its bytes; a rejected read fails with
BlobExportFailed, a resolved read reaches loadImage. -/
def processBlob (env : HostEnv) (blob : Option (List Byte)) : List Event :=
  match blob with
  | none => failed env Error.BlobExportFailed
  | some bytes =>
    if env.readOk then loadImage env bytes else failed env Error.BlobExportFailed

/-- The JS helper setCanvasSize: explicit size when both width and height
are truthy (non-zero), natural image size otherwise. The closure tests
the outer width and height while assigning its w and h arguments. -/
def setCanvasSize (width height w h natW natH : Nat) : Nat × Nat :=
  if width ≠ 0 ∧ height ≠ 0 then (w, h) else (natW, natH)

/-- The JS helper drawSvg: create a canvas, size it via setCanvasSize, then
inside try: drawImage with explicit size when both width and height are
truthy and at natural size otherwise, then canvas.toBlob. A throw from
drawImage or toBlob is caught and fails with CanvasDrawingFailed; when
toBlob succeeds the export stage later hands its blob to processBlob. -/
def drawSvg (env : HostEnv) (x y : Int) (width height : Nat) : List Event :=
  let dims := setCanvasSize width height width height env.natW env.natH
  Event.canvasSize dims.1 dims.2 ::
    (if env.drawOk then
      (if width ≠ 0 ∧ height ≠ 0 then [Event.draw4 x y width height]
       else [Event.draw2 x y]) ++
        (if env.toBlobOk then Event.stageExport :: processBlob env env.blob
         else failed env Error.CanvasDrawingFailed)
     else failed env Error.CanvasDrawingFailed)

/-- raster::aux::SvgToImage, the EM_JS pipeline body: encode the svg as a
data uri (failure fails with UriEncodingFailed), load it into an img
element (failure fires the error handler once with ImgLoadingFailed),
and on load draw and export via drawSvg. -/
def SvgToImage (env : HostEnv) (x y : Int) (width height : Nat) : List Event :=
  Event.stageEncode ::
    (if env.encodeOk then
      Event.stageLoad ::
        (if env.loadOk then Event.stageDraw :: drawSvg env x y width height
         else failed env Error.ImgLoadingFailed)
     else failed env Error.UriEncodingFailed)

/-- The callback invocations recorded in a trace, in order. -/
def cbCalls (tr : List Event) : List (List Byte × Error) :=
  tr.filterMap fun e =>
    match e with
    | Event.cbInvoke v err => some (v, err)
    | _ => none

/-- Recognizer of the heap handle creation event. -/
def isNewHandle : Event → Bool
  | Event.newHandle => true
  | _ => false

/-- Recognizer of the heap handle deletion event. -/
def isDeleteHandle : Event → Bool
  | Event.deleteHandle => true
  | _ => false

/-- Recognizer of the transient buffer malloc event. -/
def isAlloc : Event → Bool
  | Event.alloc _ => true
  | _ => false

/-- Recognizer of the transient buffer free event. -/
def isFree : Event → Bool
  | Event.free => true
  | _ => false

/-- Recognizer of entry into the encoding stage. -/
def isStageEncode : Event → Bool
  | Event.stageEncode => true
  | _ => false

/-- Recognizer of entry into the loading stage. -/
def isStageLoad : Event → Bool
  | Event.stageLoad => true
  | _ => false

/-- Recognizer of entry into the drawing stage. -/
def isStageDraw : Event → Bool
  | Event.stageDraw => true
  | _ => false

/-- Recognizer of entry into the exporting stage. -/
def isStageExport : Event → Bool
  | Event.stageExport => true
  | _ => false

end aux

/-- raster::SvgToImage, the C++ facade: an empty svg or a leading
terminator byte resolves synchronously with NoInputData, with no heap
handle and no pipeline; otherwise the callback is copied to a heap
handle and the EM_JS pipeline runs. -/
def SvgToImage (env : aux.HostEnv) (svg : List Byte) (x y : Int)
    (width height : Nat) : List aux.Event :=
  if svg = [] ∨ svg.head? = some 0 then [aux.Event.cbInvoke [] Error.NoInputData]
  else aux.Event.newHandle :: aux.SvgToImage env x y width height

end raster

-- ===========================================================================
-- Helper lemmas about the hex formatting
-- ===========================================================================

namespace raster

theorem hexDigit_inj_fin : ∀ x y : Fin 16, hexDigit x.val = hexDigit y.val → x = y := by
  decide

theorem byteHexChars_inj {b1 b2 : Byte} (h : byteHexChars b1 = byteHexChars b2) :
    b1 = b2 := by
  simp only [byteHexChars, List.cons.injEq, and_true] at h
  obtain ⟨h1, h2⟩ := h
  have d1 : b1.val / 16 < 16 := by omega
  have d2 : b2.val / 16 < 16 := by omega
  have m1 : b1.val % 16 < 16 := by omega
  have m2 : b2.val % 16 < 16 := by omega
  have e1 := hexDigit_inj_fin ⟨_, d1⟩ ⟨_, d2⟩ h1
  have e2 := hexDigit_inj_fin ⟨_, m1⟩ ⟨_, m2⟩ h2
  have e1v : b1.val / 16 = b2.val / 16 := congrArg Fin.val e1
  have e2v : b1.val % 16 = b2.val % 16 := congrArg Fin.val e2
  apply Fin.ext
  omega

theorem byteHexChars_length (b : Byte) : (byteHexChars b).length = 2 := rfl

theorem hexDigit_mem : ∀ x : Fin 16, hexDigit x.val ∈ ("0123456789ABCDEF").data := by
  decide

theorem byteHexChars_mem (b : Byte) :
    ∀ c ∈ byteHexChars b, c ∈ ("0123456789ABCDEF").data := by
  intro c hc
  have d1 : b.val / 16 < 16 := by omega
  have m1 : b.val % 16 < 16 := by omega
  simp only [byteHexChars, List.mem_cons, List.mem_singleton, List.not_mem_nil,
    or_false] at hc
  rcases hc with rfl | rfl
  · exact hexDigit_mem ⟨b.val / 16, d1⟩
  · exact hexDigit_mem ⟨b.val % 16, m1⟩

theorem slice_eq (img : List Byte) (pos n : Nat) :
    (img.drop (min pos img.length)).take (min (pos + n) img.length - min pos img.length)
      = (img.drop pos).take n := by
  rcases le_or_lt pos img.length with h | h
  · rw [min_eq_left h]
    rcases le_or_lt (pos + n) img.length with h2 | h2
    · rw [min_eq_left h2]
      congr 1
      omega
    · rw [min_eq_right (le_of_lt h2)]
      have l1 : (img.drop pos).length ≤ img.length - pos := by simp
      rw [List.take_of_length_le l1, List.take_of_length_le (by simp; omega)]
  · rw [min_eq_right (le_of_lt h), List.drop_length, List.drop_eq_nil_of_le (le_of_lt h)]
    simp

theorem dropLast_stream :
    ∀ l : List Byte,
      ((l.map (fun ch => byteHexChars ch ++ [' '])).flatten).dropLast = joinChars l := by
  intro l
  induction l with
  | nil => simp [joinChars]
  | cons a t ih =>
    cases t with
    | nil => simp [joinChars, List.dropLast_concat]
    | cons b t2 =>
      have hne : ((b :: t2).map (fun ch => byteHexChars ch ++ [' '])).flatten ≠ [] := by
        simp [byteHexChars]
      calc ((a :: b :: t2).map (fun ch => byteHexChars ch ++ [' '])).flatten.dropLast
          = ((byteHexChars a ++ [' ']) ++
              ((b :: t2).map (fun ch => byteHexChars ch ++ [' '])).flatten).dropLast := by
            simp
        _ = (byteHexChars a ++ [' ']) ++
              ((b :: t2).map (fun ch => byteHexChars ch ++ [' '])).flatten.dropLast := by
            rw [List.dropLast_append_of_ne_nil _ hne]
        _ = (byteHexChars a ++ [' ']) ++ joinChars (b :: t2) := by rw [ih]
        _ = joinChars (a :: b :: t2) := by
            simp [joinChars, List.intersperse_cons_cons]

theorem GetImageHeader_eq (img : List Byte) (pos n : Nat) :
    GetImageHeader img pos n = String.mk (joinChars ((img.drop pos).take n)) := by
  simp only [GetImageHeader]
  rw [slice_eq]
  rcases hq : (img.drop pos).take n with _ | ⟨a, t⟩
  · simp [joinChars]
  · have hne :
        (((a :: t).map (fun ch => byteHexChars ch ++ [' '])).flatten).isEmpty = false := by
      simp [byteHexChars]
    simp only [hne, if_neg, Bool.false_eq_true, not_false_eq_true]
    rw [dropLast_stream]

theorem joinChars_cons (a : Byte) (l : List Byte) :
    joinChars (a :: l) = byteHexChars a ++ tailChars l := by
  induction l generalizing a with
  | nil => simp [joinChars, tailChars]
  | cons b t ih =>
    simp only [joinChars, List.map_cons, List.intersperse_cons_cons, List.flatten_cons]
    have hb := ih b
    simp only [joinChars, List.map_cons] at hb
    rw [hb]
    simp [tailChars]

theorem tailChars_inj : ∀ l1 l2 : List Byte, tailChars l1 = tailChars l2 → l1 = l2 := by
  intro l1
  induction l1 with
  | nil =>
    intro l2 h
    cases l2 with
    | nil => rfl
    | cons b t => simp [tailChars] at h
  | cons a t ih =>
    intro l2 h
    cases l2 with
    | nil => simp [tailChars] at h
    | cons b t2 =>
      simp only [tailChars, List.flatMap_cons, List.cons_append, List.cons.injEq,
        true_and] at h
      have hl : (byteHexChars a).length = (byteHexChars b).length := by
        rw [byteHexChars_length, byteHexChars_length]
      obtain ⟨h1, h2⟩ := List.append_inj h hl
      rw [byteHexChars_inj h1, ih t2 h2]

theorem joinChars_inj {l1 l2 : List Byte} (h : joinChars l1 = joinChars l2) : l1 = l2 := by
  cases l1 with
  | nil =>
    cases l2 with
    | nil => rfl
    | cons b t =>
      exfalso
      rw [joinChars_cons] at h
      simp [joinChars, byteHexChars] at h
  | cons a t =>
    cases l2 with
    | nil =>
      exfalso
      rw [joinChars_cons] at h
      simp [joinChars, byteHexChars] at h
    | cons b t2 =>
      rw [joinChars_cons, joinChars_cons] at h
      have hl : (byteHexChars a).length = (byteHexChars b).length := by
        rw [byteHexChars_length, byteHexChars_length]
      obtain ⟨h1, h2⟩ := List.append_inj h hl
      rw [byteHexChars_inj h1, tailChars_inj t t2 h2]

theorem GetImageHeader_eq_sig_iff (img : List Byte) (pos n : Nat) (sig : List Byte) :
    GetImageHeader img pos n = String.mk (joinChars sig) ↔ (img.drop pos).take n = sig := by
  rw [GetImageHeader_eq]
  constructor
  · intro h
    exact joinChars_inj (congrArg String.data h)
  · intro h
    rw [h]

theorem sigP : png_sig = String.mk (joinChars pngMagic) := by decide

theorem sigJ : jpeg_sig = String.mk (joinChars jpegMagic) := by decide

theorem sigR : riff_sig = String.mk (joinChars riffMagic) := by decide

theorem sigW : webp_sig = String.mk (joinChars webpMagic) := by decide

end raster

-- ===========================================================================
-- Claim theorems about the pure helpers
-- ===========================================================================

namespace raster

/-- C5: for every byte buffer img and every pos and n, GetImageHeader
returns the bytes of the range from pos of length n, clipped to the
buffer at both ends, rendered as upper-case two-digit hex pairs
separated by exactly one space with no leading or trailing space (the
joinChars form); the range has exactly min n (length - pos) pairs, and
pos at or past the end yields the empty string. -/
theorem GetImageHeader_clips_and_formats (img : List Byte) (pos n : Nat) :
    (GetImageHeader img pos n).data = joinChars ((img.drop pos).take n) ∧
    ((img.drop pos).take n).length = min n (img.length - pos) ∧
    (img.length ≤ pos → GetImageHeader img pos n = "") ∧
    (∀ b : Byte, (byteHexChars b).length = 2 ∧
      ∀ c ∈ byteHexChars b, c ∈ ("0123456789ABCDEF").data) := by
  refine ⟨?_, ?_, ?_, ?_⟩
  · rw [GetImageHeader_eq]
  · simp
  · intro hle
    rw [GetImageHeader_eq, List.drop_eq_nil_of_le hle]
    simp [joinChars]
  · intro b
    exact ⟨byteHexChars_length b, byteHexChars_mem b⟩

/-- C5 witness: the theorem applied to the png magic at pos 0, n 8, and,
for the inner implication, at pos 9 past the end of the buffer. -/
theorem GetImageHeader_clips_and_formats_witness :
    (GetImageHeader pngMagic 0 8).data = joinChars ((pngMagic.drop 0).take 8) ∧
    GetImageHeader pngMagic 9 8 = "" ∧
    GetImageHeader pngMagic 0 8 = "89 50 4E 47 0D 0A 1A 0A" :=
  ⟨(GetImageHeader_clips_and_formats pngMagic 0 8).1,
    (GetImageHeader_clips_and_formats pngMagic 9 8).2.2.1 (by decide),
    by decide⟩

/-- C6: GetImageFormat returns Png iff the 8-byte png magic is at offset
0, Jpeg iff the 2-byte jpeg magic is at offset 0, Webp iff the riff
bytes are at offset 0 and the webp bytes at offset 8, and Unknown
otherwise; the empty buffer matches no signature, so it is Unknown via
the last conjunct at img = []. -/
theorem GetImageFormat_signature_match (img : List Byte) :
    (GetImageFormat img = Format.Png ↔ img.take 8 = pngMagic) ∧
    (GetImageFormat img = Format.Jpeg ↔ img.take 2 = jpegMagic) ∧
    (GetImageFormat img = Format.Webp ↔
      img.take 4 = riffMagic ∧ (img.drop 8).take 4 = webpMagic) ∧
    (img.take 8 ≠ pngMagic → img.take 2 ≠ jpegMagic →
      ¬(img.take 4 = riffMagic ∧ (img.drop 8).take 4 = webpMagic) →
      GetImageFormat img = Format.Unknown) := by
  have hP := GetImageHeader_eq_sig_iff img 0 8 pngMagic
  have hJ := GetImageHeader_eq_sig_iff img 0 2 jpegMagic
  have hR := GetImageHeader_eq_sig_iff img 0 4 riffMagic
  have hW := GetImageHeader_eq_sig_iff img 8 4 webpMagic
  rw [List.drop_zero] at hP hJ hR
  have e1 : img.take 8 = pngMagic → img.take 2 ≠ jpegMagic := by
    intro h8 h2
    have ht : (img.take 8).take 2 = img.take 2 := by
      rw [List.take_take]
      norm_num
    rw [h8, h2] at ht
    exact absurd ht (by decide)
  have e2 : img.take 8 = pngMagic → img.take 4 ≠ riffMagic := by
    intro h8 h4
    have ht : (img.take 8).take 4 = img.take 4 := by
      rw [List.take_take]
      norm_num
    rw [h8, h4] at ht
    exact absurd ht (by decide)
  have e3 : img.take 2 = jpegMagic → img.take 4 ≠ riffMagic := by
    intro h2 h4
    have ht : (img.take 4).take 2 = img.take 2 := by
      rw [List.take_take]
      norm_num
    rw [h4, h2] at ht
    exact absurd ht (by decide)
  unfold GetImageFormat
  rw [sigP, sigJ, sigR, sigW]
  split_ifs with c1 c2 c3
  · have t8 := hP.mp c1
    refine ⟨by simp [t8], ?_, ?_, ?_⟩
    · exact ⟨fun h => absurd h (by decide), fun h => absurd h (e1 t8)⟩
    · exact ⟨fun h => absurd h (by decide), fun h => absurd h.1 (e2 t8)⟩
    · intro h1 _ _
      exact absurd t8 h1
  · have t2 := hJ.mp c2
    refine ⟨?_, by simp [t2], ?_, ?_⟩
    · exact ⟨fun h => absurd h (by decide), fun h => absurd (hP.mpr h) c1⟩
    · exact ⟨fun h => absurd h (by decide), fun h => absurd h.1 (e3 t2)⟩
    · intro _ h2 _
      exact absurd t2 h2
  · have tR := hR.mp c3.1
    have tW := hW.mp c3.2
    refine ⟨?_, ?_, by simp [tR, tW], ?_⟩
    · exact ⟨fun h => absurd h (by decide), fun h => absurd (hP.mpr h) c1⟩
    · exact ⟨fun h => absurd h (by decide), fun h => absurd (hJ.mpr h) c2⟩
    · intro _ _ h3
      exact absurd ⟨tR, tW⟩ h3
  · refine ⟨?_, ?_, ?_, fun _ _ _ => rfl⟩
    · exact ⟨fun h => absurd h (by decide), fun h => absurd (hP.mpr h) c1⟩
    · exact ⟨fun h => absurd h (by decide), fun h => absurd (hJ.mpr h) c2⟩
    · exact ⟨fun h => absurd h (by decide), fun h => absurd ⟨hR.mpr h.1, hW.mpr h.2⟩ c3⟩

/-- C6 witness: the theorem applied to the png magic itself and, for the
no-match implications, to a one-byte buffer matching no signature. -/
theorem GetImageFormat_signature_match_witness :
    GetImageFormat pngMagic = Format.Png ∧
    GetImageFormat [0x4A] = Format.Unknown :=
  ⟨(GetImageFormat_signature_match pngMagic).1.mpr (by decide),
    (GetImageFormat_signature_match [0x4A]).2.2.2 (by decide) (by decide) (by decide)⟩

/-- C10: GetImageFormat reads only the first twelve bytes: two buffers of
length at least twelve that agree on their first twelve bytes classify
identically. -/
theorem GetImageFormat_first_twelve (l1 l2 : List Byte)
    (_h1 : 12 ≤ l1.length) (_h2 : 12 ≤ l2.length)
    (h : l1.take 12 = l2.take 12) :
    GetImageFormat l1 = GetImageFormat l2 := by
  have t8 : l1.take 8 = l2.take 8 := by
    have e1 : l1.take 8 = (l1.take 12).take 8 := by
      rw [List.take_take]
      norm_num
    have e2 : l2.take 8 = (l2.take 12).take 8 := by
      rw [List.take_take]
      norm_num
    rw [e1, e2, h]
  have t2 : l1.take 2 = l2.take 2 := by
    have e1 : l1.take 2 = (l1.take 12).take 2 := by
      rw [List.take_take]
      norm_num
    have e2 : l2.take 2 = (l2.take 12).take 2 := by
      rw [List.take_take]
      norm_num
    rw [e1, e2, h]
  have t4 : l1.take 4 = l2.take 4 := by
    have e1 : l1.take 4 = (l1.take 12).take 4 := by
      rw [List.take_take]
      norm_num
    have e2 : l2.take 4 = (l2.take 12).take 4 := by
      rw [List.take_take]
      norm_num
    rw [e1, e2, h]
  have t84 : (l1.drop 8).take 4 = (l2.drop 8).take 4 := by
    have e1 : (l1.drop 8).take 4 = (l1.take 12).drop 8 := by
      rw [List.drop_take]
    have e2 : (l2.drop 8).take 4 = (l2.take 12).drop 8 := by
      rw [List.drop_take]
    rw [e1, e2, h]
  have hh8 : GetImageHeader l1 0 8 = GetImageHeader l2 0 8 := by
    rw [GetImageHeader_eq, GetImageHeader_eq, List.drop_zero, List.drop_zero, t8]
  have hh2 : GetImageHeader l1 0 2 = GetImageHeader l2 0 2 := by
    rw [GetImageHeader_eq, GetImageHeader_eq, List.drop_zero, List.drop_zero, t2]
  have hh4 : GetImageHeader l1 0 4 = GetImageHeader l2 0 4 := by
    rw [GetImageHeader_eq, GetImageHeader_eq, List.drop_zero, List.drop_zero, t4]
  have hh84 : GetImageHeader l1 8 4 = GetImageHeader l2 8 4 := by
    rw [GetImageHeader_eq, GetImageHeader_eq, t84]
  unfold GetImageFormat
  simp only [hh8, hh2, hh4, hh84]

/-- C10 witness: two length-13 buffers sharing the png magic and four
padding bytes but differing in byte 12 classify identically. -/
theorem GetImageFormat_first_twelve_witness :
    GetImageFormat (pngMagic ++ [0, 0, 0, 0, 5]) =
      GetImageFormat (pngMagic ++ [0, 0, 0, 0, 9]) :=
  GetImageFormat_first_twelve (pngMagic ++ [0, 0, 0, 0, 5]) (pngMagic ++ [0, 0, 0, 0, 9])
    (by decide) (by decide) (by decide)

end raster

-- ===========================================================================
-- Helper lemmas about the pipeline traces
-- ===========================================================================

namespace raster.aux

theorem cbCalls_nil : cbCalls [] = [] := rfl

theorem cbCalls_cons (e : Event) (tr : List Event) :
    cbCalls (e :: tr) =
      (match e with
        | Event.cbInvoke v err => [(v, err)]
        | _ => []) ++ cbCalls tr := by
  cases e <;> rfl

theorem cbCalls_append (t1 t2 : List Event) :
    cbCalls (t1 ++ t2) = cbCalls t1 ++ cbCalls t2 := by
  simp [cbCalls, List.filterMap_append]

theorem failed_eq (env : HostEnv) (err : Error) :
    failed env err =
      Event.cbInvoke [] err :: (if env.cbThrows then [] else [Event.deleteHandle]) := rfl

theorem loadImage_eq (env : HostEnv) (buf : List Byte) :
    loadImage env buf =
      Event.alloc buf.length :: Event.cbInvoke buf Error.None ::
        ((if env.cbThrows then [] else [Event.deleteHandle]) ++
          (if env.cbThrows then [Event.alert] else []) ++ [Event.free]) := by
  unfold loadImage ExecCb
  rcases buf with _ | ⟨b, t⟩
  · simp
  · simp [List.take_length]

theorem cbCalls_failed (env : HostEnv) (err : Error) :
    cbCalls (failed env err) = [([], err)] := by
  rw [failed_eq]
  cases hc : env.cbThrows <;> simp [cbCalls_cons, cbCalls_nil]

theorem cbCalls_loadImage (env : HostEnv) (buf : List Byte) :
    cbCalls (loadImage env buf) = [(buf, Error.None)] := by
  rw [loadImage_eq]
  cases hc : env.cbThrows <;>
    simp [cbCalls_cons, cbCalls_append, cbCalls_nil]

theorem cbCalls_processBlob (env : HostEnv) (blob : Option (List Byte)) :
    cbCalls (processBlob env blob) =
      match blob with
      | none => [([], Error.BlobExportFailed)]
      | some bs =>
        if env.readOk then [(bs, Error.None)] else [([], Error.BlobExportFailed)] := by
  rcases blob with _ | bs
  · exact cbCalls_failed env _
  · unfold processBlob
    cases hr : env.readOk <;> simp [cbCalls_failed, cbCalls_loadImage]

theorem trace_cases (env : HostEnv) (x y : Int) (w h : Nat) :
    (env.encodeOk = false ∧
      SvgToImage env x y w h =
        Event.stageEncode :: failed env Error.UriEncodingFailed) ∨
    (env.encodeOk = true ∧ env.loadOk = false ∧
      SvgToImage env x y w h =
        Event.stageEncode :: Event.stageLoad :: failed env Error.ImgLoadingFailed) ∨
    (env.encodeOk = true ∧ env.loadOk = true ∧ env.drawOk = false ∧
      SvgToImage env x y w h =
        Event.stageEncode :: Event.stageLoad :: Event.stageDraw ::
          Event.canvasSize (setCanvasSize w h w h env.natW env.natH).1
            (setCanvasSize w h w h env.natW env.natH).2 ::
          failed env Error.CanvasDrawingFailed) ∨
    (env.encodeOk = true ∧ env.loadOk = true ∧ env.drawOk = true ∧
      env.toBlobOk = false ∧
      SvgToImage env x y w h =
        Event.stageEncode :: Event.stageLoad :: Event.stageDraw ::
          Event.canvasSize (setCanvasSize w h w h env.natW env.natH).1
            (setCanvasSize w h w h env.natW env.natH).2 ::
          ((if w ≠ 0 ∧ h ≠ 0 then [Event.draw4 x y w h] else [Event.draw2 x y]) ++
            failed env Error.CanvasDrawingFailed)) ∨
    (env.encodeOk = true ∧ env.loadOk = true ∧ env.drawOk = true ∧
      env.toBlobOk = true ∧
      SvgToImage env x y w h =
        Event.stageEncode :: Event.stageLoad :: Event.stageDraw ::
          Event.canvasSize (setCanvasSize w h w h env.natW env.natH).1
            (setCanvasSize w h w h env.natW env.natH).2 ::
          ((if w ≠ 0 ∧ h ≠ 0 then [Event.draw4 x y w h] else [Event.draw2 x y]) ++
            (Event.stageExport :: processBlob env env.blob))) := by
  unfold SvgToImage drawSvg
  cases he : env.encodeOk
  · left
    exact ⟨rfl, rfl⟩
  · cases hl : env.loadOk
    · right; left
      exact ⟨rfl, rfl, rfl⟩
    · cases hd : env.drawOk
      · right; right; left
        exact ⟨rfl, rfl, rfl, rfl⟩
      · cases ht : env.toBlobOk
        · right; right; right; left
          exact ⟨rfl, rfl, rfl, rfl, rfl⟩
        · right; right; right; right
          exact ⟨rfl, rfl, rfl, rfl, rfl⟩

end raster.aux

-- ===========================================================================
-- Claim theorems about the pipeline
-- ===========================================================================

namespace raster

/-- C1: for every request with non-empty markup not beginning with a
terminator byte, whatever the host outcomes, the callback is invoked
exactly once, with a single outcome: Error None together with the
exported bytes, or one of the errors together with an empty view; and no
pipeline stage is entered twice. -/
theorem SvgToImage_exactly_one_callback (env : aux.HostEnv) (svg : List Byte)
    (x y : Int) (w h : Nat) (hne : svg ≠ []) (hterm : svg.head? ≠ some 0) :
    ∃ v err,
      aux.cbCalls (SvgToImage env svg x y w h) = [(v, err)] ∧
      ((err = Error.None ∧ env.blob = some v) ∨ (err ≠ Error.None ∧ v = [])) ∧
      (SvgToImage env svg x y w h).countP aux.isStageEncode = 1 ∧
      (SvgToImage env svg x y w h).countP aux.isStageLoad ≤ 1 ∧
      (SvgToImage env svg x y w h).countP aux.isStageDraw ≤ 1 ∧
      (SvgToImage env svg x y w h).countP aux.isStageExport ≤ 1 := by
  have hcond : ¬(svg = [] ∨ svg.head? = some 0) := by
    rintro (hc | hc)
    · exact hne hc
    · exact hterm hc
  have htr : SvgToImage env svg x y w h =
      aux.Event.newHandle :: aux.SvgToImage env x y w h := by
    unfold SvgToImage
    rw [if_neg hcond]
  rcases aux.trace_cases env x y w h with
    ⟨he, heq⟩ | ⟨he, hl, heq⟩ | ⟨he, hl, hd, heq⟩ | ⟨he, hl, hd, ht, heq⟩ |
    ⟨he, hl, hd, ht, heq⟩
  · refine ⟨[], Error.UriEncodingFailed, ?_, Or.inr ⟨by decide, rfl⟩, ?_, ?_, ?_, ?_⟩ <;>
      rw [htr, heq, aux.failed_eq] <;>
      cases hct : env.cbThrows <;>
        simp [hct, aux.cbCalls_cons, aux.cbCalls_nil, aux.isStageEncode,
          aux.isStageLoad, aux.isStageDraw, aux.isStageExport]
  · refine ⟨[], Error.ImgLoadingFailed, ?_, Or.inr ⟨by decide, rfl⟩, ?_, ?_, ?_, ?_⟩ <;>
      rw [htr, heq, aux.failed_eq] <;>
      cases hct : env.cbThrows <;>
        simp [hct, aux.cbCalls_cons, aux.cbCalls_nil, aux.isStageEncode,
          aux.isStageLoad, aux.isStageDraw, aux.isStageExport]
  · refine ⟨[], Error.CanvasDrawingFailed, ?_, Or.inr ⟨by decide, rfl⟩, ?_, ?_, ?_, ?_⟩ <;>
      rw [htr, heq, aux.failed_eq] <;>
      cases hct : env.cbThrows <;>
        simp [hct, aux.cbCalls_cons, aux.cbCalls_nil, aux.isStageEncode,
          aux.isStageLoad, aux.isStageDraw, aux.isStageExport]
  · refine ⟨[], Error.CanvasDrawingFailed, ?_, Or.inr ⟨by decide, rfl⟩, ?_, ?_, ?_, ?_⟩ <;>
      rw [htr, heq, aux.failed_eq] <;>
      by_cases hwh : w ≠ 0 ∧ h ≠ 0 <;> cases hct : env.cbThrows <;>
        simp [hct, hwh, aux.cbCalls_cons, aux.cbCalls_nil, aux.cbCalls_append,
          aux.isStageEncode, aux.isStageLoad, aux.isStageDraw, aux.isStageExport]
  · rcases hb : env.blob with _ | bs
    · refine ⟨[], Error.BlobExportFailed, ?_, Or.inr ⟨by decide, rfl⟩, ?_, ?_, ?_, ?_⟩ <;>
        rw [htr, heq] <;>
        by_cases hwh : w ≠ 0 ∧ h ≠ 0 <;> cases hct : env.cbThrows <;>
          simp [hct, hwh, hb, aux.processBlob, aux.failed_eq, aux.cbCalls_cons,
            aux.cbCalls_nil, aux.cbCalls_append, aux.isStageEncode, aux.isStageLoad,
            aux.isStageDraw, aux.isStageExport]
    · cases hr : env.readOk
      · refine ⟨[], Error.BlobExportFailed, ?_, Or.inr ⟨by decide, rfl⟩,
          ?_, ?_, ?_, ?_⟩ <;>
          rw [htr, heq] <;>
          by_cases hwh : w ≠ 0 ∧ h ≠ 0 <;> cases hct : env.cbThrows <;>
            simp [hct, hwh, hb, hr, aux.processBlob, aux.failed_eq, aux.cbCalls_cons,
              aux.cbCalls_nil, aux.cbCalls_append, aux.isStageEncode, aux.isStageLoad,
              aux.isStageDraw, aux.isStageExport]
      · refine ⟨bs, Error.None, ?_, Or.inl ⟨rfl, rfl⟩, ?_, ?_, ?_, ?_⟩ <;>
          rw [htr, heq] <;>
          by_cases hwh : w ≠ 0 ∧ h ≠ 0 <;> cases hct : env.cbThrows <;>
            simp [hct, hwh, hb, hr, aux.processBlob, aux.loadImage_eq,
              aux.cbCalls_cons, aux.cbCalls_nil, aux.cbCalls_append,
              aux.isStageEncode, aux.isStageLoad, aux.isStageDraw, aux.isStageExport]

/-- C1 witness: the theorem applied to a concrete all-success environment
and the one-byte markup [1]. -/
theorem SvgToImage_exactly_one_callback_witness :
    ∃ v err,
      aux.cbCalls (SvgToImage ⟨true, true, 3, 4, true, true, some [7, 8], true, false⟩
        [1] 0 0 0 0) = [(v, err)] ∧
      ((err = Error.None ∧
          (⟨true, true, 3, 4, true, true, some [7, 8], true,
            false⟩ : aux.HostEnv).blob = some v) ∨
        (err ≠ Error.None ∧ v = [])) ∧
      (SvgToImage ⟨true, true, 3, 4, true, true, some [7, 8], true, false⟩
        [1] 0 0 0 0).countP aux.isStageEncode = 1 ∧
      (SvgToImage ⟨true, true, 3, 4, true, true, some [7, 8], true, false⟩
        [1] 0 0 0 0).countP aux.isStageLoad ≤ 1 ∧
      (SvgToImage ⟨true, true, 3, 4, true, true, some [7, 8], true, false⟩
        [1] 0 0 0 0).countP aux.isStageDraw ≤ 1 ∧
      (SvgToImage ⟨true, true, 3, 4, true, true, some [7, 8], true, false⟩
        [1] 0 0 0 0).countP aux.isStageExport ≤ 1 :=
  SvgToImage_exactly_one_callback _ [1] 0 0 0 0 (by decide) (by decide)

end raster

namespace raster

/-- C2 (amended): for every request that passes validation exactly one
heap handle is created and the callback is invoked exactly once; the
handle is destroyed exactly once when the callback returns normally, but
a throwing callback skips the delete, so the handle is destroyed zero
times in that case. -/
theorem SvgToImage_handle_lifecycle (env : aux.HostEnv) (svg : List Byte)
    (x y : Int) (w h : Nat) (hne : svg ≠ []) (hterm : svg.head? ≠ some 0) :
    (SvgToImage env svg x y w h).countP aux.isNewHandle = 1 ∧
    (aux.cbCalls (SvgToImage env svg x y w h)).length = 1 ∧
    (SvgToImage env svg x y w h).countP aux.isDeleteHandle =
      (if env.cbThrows then 0 else 1) := by
  have hcond : ¬(svg = [] ∨ svg.head? = some 0) := by
    rintro (hc | hc)
    · exact hne hc
    · exact hterm hc
  have htr : SvgToImage env svg x y w h =
      aux.Event.newHandle :: aux.SvgToImage env x y w h := by
    unfold SvgToImage
    rw [if_neg hcond]
  rcases aux.trace_cases env x y w h with
    ⟨he, heq⟩ | ⟨he, hl, heq⟩ | ⟨he, hl, hd, heq⟩ | ⟨he, hl, hd, ht, heq⟩ |
    ⟨he, hl, hd, ht, heq⟩
  · refine ⟨?_, ?_, ?_⟩ <;> rw [htr, heq, aux.failed_eq] <;>
      cases hct : env.cbThrows <;>
        simp [hct, aux.cbCalls_cons, aux.cbCalls_nil, aux.isNewHandle,
          aux.isDeleteHandle]
  · refine ⟨?_, ?_, ?_⟩ <;> rw [htr, heq, aux.failed_eq] <;>
      cases hct : env.cbThrows <;>
        simp [hct, aux.cbCalls_cons, aux.cbCalls_nil, aux.isNewHandle,
          aux.isDeleteHandle]
  · refine ⟨?_, ?_, ?_⟩ <;> rw [htr, heq, aux.failed_eq] <;>
      cases hct : env.cbThrows <;>
        simp [hct, aux.cbCalls_cons, aux.cbCalls_nil, aux.isNewHandle,
          aux.isDeleteHandle]
  · refine ⟨?_, ?_, ?_⟩ <;> rw [htr, heq, aux.failed_eq] <;>
      by_cases hwh : w ≠ 0 ∧ h ≠ 0 <;> cases hct : env.cbThrows <;>
        simp [hct, hwh, aux.cbCalls_cons, aux.cbCalls_nil, aux.cbCalls_append,
          aux.isNewHandle, aux.isDeleteHandle]
  · rcases hb : env.blob with _ | bs
    · refine ⟨?_, ?_, ?_⟩ <;> rw [htr, heq] <;>
        by_cases hwh : w ≠ 0 ∧ h ≠ 0 <;> cases hct : env.cbThrows <;>
          simp [hct, hwh, hb, aux.processBlob, aux.failed_eq, aux.cbCalls_cons,
            aux.cbCalls_nil, aux.cbCalls_append, aux.isNewHandle, aux.isDeleteHandle]
    · cases hr : env.readOk
      · refine ⟨?_, ?_, ?_⟩ <;> rw [htr, heq] <;>
          by_cases hwh : w ≠ 0 ∧ h ≠ 0 <;> cases hct : env.cbThrows <;>
            simp [hct, hwh, hb, hr, aux.processBlob, aux.failed_eq, aux.cbCalls_cons,
              aux.cbCalls_nil, aux.cbCalls_append, aux.isNewHandle, aux.isDeleteHandle]
      · refine ⟨?_, ?_, ?_⟩ <;> rw [htr, heq] <;>
          by_cases hwh : w ≠ 0 ∧ h ≠ 0 <;> cases hct : env.cbThrows <;>
            simp [hct, hwh, hb, hr, aux.processBlob, aux.loadImage_eq,
              aux.cbCalls_cons, aux.cbCalls_nil, aux.cbCalls_append,
              aux.isNewHandle, aux.isDeleteHandle]

/-- C2 witness: the amended theorem applied to a concrete all-success
environment with a non-throwing callback and the markup [1]. -/
theorem SvgToImage_handle_lifecycle_witness :
    (SvgToImage ⟨true, true, 3, 4, true, true, some [7], true, false⟩
        [1] 0 0 0 0).countP aux.isNewHandle = 1 ∧
    (aux.cbCalls (SvgToImage ⟨true, true, 3, 4, true, true, some [7], true, false⟩
        [1] 0 0 0 0)).length = 1 ∧
    (SvgToImage ⟨true, true, 3, 4, true, true, some [7], true, false⟩
        [1] 0 0 0 0).countP aux.isDeleteHandle =
      (if (⟨true, true, 3, 4, true, true, some [7], true,
          false⟩ : aux.HostEnv).cbThrows then 0 else 1) :=
  SvgToImage_handle_lifecycle _ [1] 0 0 0 0 (by decide) (by decide)

/-- C2 counterexample: with a throwing callback on the success path the
handle is created and the callback invoked, yet the handle is never
destroyed, so it is not destroyed exactly once as the claim states. -/
theorem SvgToImage_handle_leak_on_throw :
    (SvgToImage ⟨true, true, 3, 4, true, true, some [7], true, true⟩
        [1] 0 0 0 0).countP aux.isNewHandle = 1 ∧
    (aux.cbCalls (SvgToImage ⟨true, true, 3, 4, true, true, some [7], true, true⟩
        [1] 0 0 0 0)).length = 1 ∧
    (SvgToImage ⟨true, true, 3, 4, true, true, some [7], true, true⟩
        [1] 0 0 0 0).countP aux.isDeleteHandle = 0 := by
  decide

/-- C3: an empty markup or one beginning with the terminator byte
resolves synchronously: the whole trace is one callback invocation with
an empty view and NoInputData; no heap handle is created, no pipeline
stage is entered, and no buffer is allocated. -/
theorem SvgToImage_fast_path (env : aux.HostEnv) (svg : List Byte) (x y : Int)
    (w h : Nat) (hcond : svg = [] ∨ svg.head? = some 0) :
    SvgToImage env svg x y w h = [aux.Event.cbInvoke [] Error.NoInputData] ∧
    aux.cbCalls (SvgToImage env svg x y w h) = [([], Error.NoInputData)] ∧
    (SvgToImage env svg x y w h).countP aux.isNewHandle = 0 ∧
    (SvgToImage env svg x y w h).countP aux.isStageEncode = 0 ∧
    (SvgToImage env svg x y w h).countP aux.isStageLoad = 0 ∧
    (SvgToImage env svg x y w h).countP aux.isStageDraw = 0 ∧
    (SvgToImage env svg x y w h).countP aux.isStageExport = 0 ∧
    (SvgToImage env svg x y w h).countP aux.isAlloc = 0 := by
  have htr : SvgToImage env svg x y w h = [aux.Event.cbInvoke [] Error.NoInputData] := by
    unfold SvgToImage
    rw [if_pos hcond]
  refine ⟨htr, ?_, ?_, ?_, ?_, ?_, ?_, ?_⟩ <;> rw [htr] <;>
    simp [aux.cbCalls_cons, aux.cbCalls_nil, aux.isNewHandle, aux.isStageEncode,
      aux.isStageLoad, aux.isStageDraw, aux.isStageExport, aux.isAlloc]

/-- C3 witness: the theorem applied to the empty markup and to a markup
beginning with the terminator byte. -/
theorem SvgToImage_fast_path_witness :
    SvgToImage ⟨true, true, 3, 4, true, true, some [7], true, false⟩ [] 0 0 0 0 =
      [aux.Event.cbInvoke [] Error.NoInputData] ∧
    SvgToImage ⟨true, true, 3, 4, true, true, some [7], true, false⟩ [0, 5] 0 0 0 0 =
      [aux.Event.cbInvoke [] Error.NoInputData] :=
  ⟨(SvgToImage_fast_path _ [] 0 0 0 0 (Or.inl rfl)).1,
    (SvgToImage_fast_path _ [0, 5] 0 0 0 0 (Or.inr (by decide))).1⟩

end raster

namespace raster

/-- C4: on the success terminal transition the marshaller allocates one
buffer sized exactly to the produced byte count, invokes the callback
with a view over exactly those bytes, and frees the buffer after the
callback returns, also when the callback throws (the free is the last
event, after the alert); before that point no alloc and no free occurs.
On every failure transition no buffer is allocated and none is freed. -/
theorem loadImage_transient_buffer (env : aux.HostEnv) (svg : List Byte)
    (x y : Int) (w h : Nat) (hne : svg ≠ []) (hterm : svg.head? ≠ some 0) :
    (∀ bs, env.encodeOk = true → env.loadOk = true → env.drawOk = true →
      env.toBlobOk = true → env.blob = some bs → env.readOk = true →
      ∃ pre,
        SvgToImage env svg x y w h =
          pre ++ aux.Event.alloc bs.length :: aux.Event.cbInvoke bs Error.None ::
            (if env.cbThrows then [aux.Event.alert, aux.Event.free]
             else [aux.Event.deleteHandle, aux.Event.free]) ∧
        pre.countP aux.isAlloc = 0 ∧ pre.countP aux.isFree = 0) ∧
    ((env.encodeOk = false ∨ env.loadOk = false ∨ env.drawOk = false ∨
        env.toBlobOk = false ∨ env.blob = none ∨ env.readOk = false) →
      (SvgToImage env svg x y w h).countP aux.isAlloc = 0 ∧
      (SvgToImage env svg x y w h).countP aux.isFree = 0) := by
  have hcond : ¬(svg = [] ∨ svg.head? = some 0) := by
    rintro (hc | hc)
    · exact hne hc
    · exact hterm hc
  have htr : SvgToImage env svg x y w h =
      aux.Event.newHandle :: aux.SvgToImage env x y w h := by
    unfold SvgToImage
    rw [if_neg hcond]
  constructor
  · intro bs he hl hd ht hb hr
    rcases aux.trace_cases env x y w h with
      ⟨hf, _⟩ | ⟨_, hf, _⟩ | ⟨_, _, hf, _⟩ | ⟨_, _, _, hf, _⟩ |
      ⟨_, _, _, _, heq⟩
    · rw [he] at hf
      exact absurd hf (by decide)
    · rw [hl] at hf
      exact absurd hf (by decide)
    · rw [hd] at hf
      exact absurd hf (by decide)
    · rw [ht] at hf
      exact absurd hf (by decide)
    · have hpb : aux.processBlob env env.blob = aux.loadImage env bs := by
        rw [hb]
        unfold aux.processBlob
        rw [hr]
        simp
      refine ⟨aux.Event.newHandle :: aux.Event.stageEncode :: aux.Event.stageLoad ::
        aux.Event.stageDraw ::
        aux.Event.canvasSize (aux.setCanvasSize w h w h env.natW env.natH).1
          (aux.setCanvasSize w h w h env.natW env.natH).2 ::
        ((if w ≠ 0 ∧ h ≠ 0 then [aux.Event.draw4 x y w h] else [aux.Event.draw2 x y]) ++
          [aux.Event.stageExport]), ?_, ?_, ?_⟩
      · rw [htr, heq, hpb, aux.loadImage_eq]
        cases hct : env.cbThrows <;>
          by_cases hwh : w ≠ 0 ∧ h ≠ 0 <;> simp [hct, hwh]
      · by_cases hwh : w ≠ 0 ∧ h ≠ 0 <;> simp [hwh, aux.isAlloc]
      · by_cases hwh : w ≠ 0 ∧ h ≠ 0 <;> simp [hwh, aux.isFree]
  · intro hfail
    rcases aux.trace_cases env x y w h with
      ⟨he, heq⟩ | ⟨he, hl, heq⟩ | ⟨he, hl, hd, heq⟩ | ⟨he, hl, hd, ht, heq⟩ |
      ⟨he, hl, hd, ht, heq⟩
    · constructor <;> rw [htr, heq, aux.failed_eq] <;>
        cases hct : env.cbThrows <;> simp [hct, aux.isAlloc, aux.isFree]
    · constructor <;> rw [htr, heq, aux.failed_eq] <;>
        cases hct : env.cbThrows <;> simp [hct, aux.isAlloc, aux.isFree]
    · constructor <;> rw [htr, heq, aux.failed_eq] <;>
        cases hct : env.cbThrows <;> simp [hct, aux.isAlloc, aux.isFree]
    · constructor <;> rw [htr, heq, aux.failed_eq] <;>
        by_cases hwh : w ≠ 0 ∧ h ≠ 0 <;> cases hct : env.cbThrows <;>
          simp [hct, hwh, aux.isAlloc, aux.isFree]
    · have hblobfail : env.blob = none ∨ env.readOk = false := by
        rcases hfail with hf | hf | hf | hf | hf | hf
        · rw [he] at hf
          exact absurd hf (by decide)
        · rw [hl] at hf
          exact absurd hf (by decide)
        · rw [hd] at hf
          exact absurd hf (by decide)
        · rw [ht] at hf
          exact absurd hf (by decide)
        · exact Or.inl hf
        · exact Or.inr hf
      rcases hblobfail with hf | hf
      · constructor <;> rw [htr, heq] <;>
          by_cases hwh : w ≠ 0 ∧ h ≠ 0 <;> cases hct : env.cbThrows <;>
            simp [hct, hwh, hf, aux.processBlob, aux.failed_eq, aux.isAlloc, aux.isFree]
      · rcases hb : env.blob with _ | bs
        · constructor <;> rw [htr, heq] <;>
            by_cases hwh : w ≠ 0 ∧ h ≠ 0 <;> cases hct : env.cbThrows <;>
              simp [hct, hwh, hb, aux.processBlob, aux.failed_eq, aux.isAlloc,
                aux.isFree]
        · constructor <;> rw [htr, heq] <;>
            by_cases hwh : w ≠ 0 ∧ h ≠ 0 <;> cases hct : env.cbThrows <;>
              simp [hct, hwh, hb, hf, aux.processBlob, aux.failed_eq, aux.isAlloc,
                aux.isFree]

/-- C4 witness: the theorem applied to a concrete all-success environment
with a throwing callback, and to a concrete environment with a null
blob. -/
theorem loadImage_transient_buffer_witness :
    (∃ pre,
      SvgToImage ⟨true, true, 3, 4, true, true, some [7, 8], true, true⟩ [1] 0 0 0 0 =
        pre ++ aux.Event.alloc ([7, 8] : List Byte).length ::
          aux.Event.cbInvoke [7, 8] Error.None ::
          (if (⟨true, true, 3, 4, true, true, some [7, 8], true,
              true⟩ : aux.HostEnv).cbThrows then [aux.Event.alert, aux.Event.free]
           else [aux.Event.deleteHandle, aux.Event.free]) ∧
      pre.countP aux.isAlloc = 0 ∧ pre.countP aux.isFree = 0) ∧
    (SvgToImage ⟨true, true, 3, 4, true, true, none, true, false⟩
        [1] 0 0 0 0).countP aux.isAlloc = 0 :=
  ⟨(loadImage_transient_buffer _ [1] 0 0 0 0 (by decide) (by decide)).1 [7, 8]
      rfl rfl rfl rfl rfl rfl,
    ((loadImage_transient_buffer _ [1] 0 0 0 0 (by decide) (by decide)).2
      (Or.inr (Or.inr (Or.inr (Or.inr (Or.inl rfl)))))).1⟩

end raster

namespace raster

/-- C7 counterexample: an empty (zero-byte) export result does not lead
to BlobExportFailed as the claim states: with the host delivering an
empty blob, the pipeline terminates with Error None and an empty view. -/
theorem processBlob_empty_blob_succeeds :
    aux.cbCalls (SvgToImage ⟨true, true, 3, 4, true, true, some [], true, false⟩
        [1] 0 0 0 0) = [([], Error.None)] ∧
    aux.cbCalls (SvgToImage ⟨true, true, 3, 4, true, true, some [], true, false⟩
        [1] 0 0 0 0) ≠ [([], Error.BlobExportFailed)] := by
  decide

/-- C7 (amended): in the exporting stage a null export result leads to
terminal BlobExportFailed with an empty view, and so does a rejected
byte read; but any non-null export result proceeds toward Done — the
nullness check alone decides — so an empty export result reaches Done
and delivers Error None with the empty bytes. -/
theorem processBlob_outcomes (env : aux.HostEnv) :
    aux.cbCalls (aux.processBlob env none) = [([], Error.BlobExportFailed)] ∧
    (∀ bs, env.readOk = false →
      aux.cbCalls (aux.processBlob env (some bs)) = [([], Error.BlobExportFailed)]) ∧
    (∀ bs, env.readOk = true →
      aux.cbCalls (aux.processBlob env (some bs)) = [(bs, Error.None)]) ∧
    (env.readOk = true →
      aux.cbCalls (aux.processBlob env (some [])) = [([], Error.None)]) := by
  refine ⟨aux.cbCalls_failed env _, ?_, ?_, ?_⟩
  · intro bs hr
    rw [aux.cbCalls_processBlob]
    simp [hr]
  · intro bs hr
    rw [aux.cbCalls_processBlob]
    simp [hr]
  · intro hr
    rw [aux.cbCalls_processBlob]
    simp [hr]

/-- C7 witness: the amended theorem applied to a concrete environment
whose read resolves, at a null, a non-empty, and an empty blob. -/
theorem processBlob_outcomes_witness :
    aux.cbCalls (aux.processBlob ⟨true, true, 3, 4, true, true, some [], true, false⟩
        none) = [([], Error.BlobExportFailed)] ∧
    aux.cbCalls (aux.processBlob ⟨true, true, 3, 4, true, true, some [], true, false⟩
        (some [9])) = [([9], Error.None)] ∧
    aux.cbCalls (aux.processBlob ⟨true, true, 3, 4, true, true, some [], true, false⟩
        (some [])) = [([], Error.None)] :=
  ⟨(processBlob_outcomes _).1, (processBlob_outcomes _).2.2.1 [9] rfl,
    (processBlob_outcomes _).2.2.2 rfl⟩

/-- C8: in the drawing stage, with non-zero width and height the canvas
is sized exactly (width, height) and, when drawImage succeeds, the image
is drawn at (x, y) scaled into (width, height); with width and height
both zero the canvas is sized to the natural dimensions of the decoded
image and the image is drawn at (x, y) at natural size. -/
theorem drawSvg_sizing (env : aux.HostEnv) (x y : Int) (w h : Nat) :
    (w ≠ 0 → h ≠ 0 →
      ∃ rest,
        aux.drawSvg env x y w h = aux.Event.canvasSize w h :: rest ∧
        (env.drawOk = true → rest.head? = some (aux.Event.draw4 x y w h))) ∧
    (w = 0 → h = 0 →
      ∃ rest,
        aux.drawSvg env x y w h =
          aux.Event.canvasSize env.natW env.natH :: rest ∧
        (env.drawOk = true → rest.head? = some (aux.Event.draw2 x y))) := by
  constructor
  · intro hw hh
    have hwh : w ≠ 0 ∧ h ≠ 0 := ⟨hw, hh⟩
    refine ⟨(if env.drawOk then
        [aux.Event.draw4 x y w h] ++
          (if env.toBlobOk then aux.Event.stageExport :: aux.processBlob env env.blob
           else aux.failed env Error.CanvasDrawingFailed)
      else aux.failed env Error.CanvasDrawingFailed), ?_, ?_⟩
    · unfold aux.drawSvg aux.setCanvasSize
      simp [hwh]
    · intro hdOk
      simp [hdOk]
  · intro hw hh
    have hwh : ¬(w ≠ 0 ∧ h ≠ 0) := by
      rintro ⟨hc, _⟩
      exact hc hw
    refine ⟨(if env.drawOk then
        [aux.Event.draw2 x y] ++
          (if env.toBlobOk then aux.Event.stageExport :: aux.processBlob env env.blob
           else aux.failed env Error.CanvasDrawingFailed)
      else aux.failed env Error.CanvasDrawingFailed), ?_, ?_⟩
    · unfold aux.drawSvg aux.setCanvasSize
      simp [hwh]
    · intro hdOk
      simp [hdOk]

/-- C8 witness: the theorem applied to a concrete environment at explicit
size (5, 6) and at size (0, 0). -/
theorem drawSvg_sizing_witness :
    (∃ rest,
      aux.drawSvg ⟨true, true, 3, 4, true, true, some [7], true, false⟩ 1 2 5 6 =
        aux.Event.canvasSize 5 6 :: rest ∧
      ((⟨true, true, 3, 4, true, true, some [7], true,
          false⟩ : aux.HostEnv).drawOk = true →
        rest.head? = some (aux.Event.draw4 1 2 5 6))) ∧
    (∃ rest,
      aux.drawSvg ⟨true, true, 3, 4, true, true, some [7], true, false⟩ 1 2 0 0 =
        aux.Event.canvasSize
          (⟨true, true, 3, 4, true, true, some [7], true, false⟩ : aux.HostEnv).natW
          (⟨true, true, 3, 4, true, true, some [7], true, false⟩ : aux.HostEnv).natH ::
          rest ∧
      ((⟨true, true, 3, 4, true, true, some [7], true,
          false⟩ : aux.HostEnv).drawOk = true →
        rest.head? = some (aux.Event.draw2 1 2))) :=
  ⟨(drawSvg_sizing _ 1 2 5 6).1 (by decide) (by decide),
    (drawSvg_sizing _ 1 2 0 0).2 rfl rfl⟩

/-- C9: ExecCb hands the callback the view over (data, size) exactly when
data is non-null and size is positive, and an empty view in every other
case, whatever the error code; in particular the pipeline can deliver
Error None together with an empty view when the export produced zero
bytes. -/
theorem ExecCb_view_rule (env : aux.HostEnv) (data : Option (List Byte)) (size : Nat)
    (err : Error) :
    (∀ buf, data = some buf → 0 < size →
      aux.cbCalls (aux.ExecCb env data size err).2 = [(buf.take size, err)]) ∧
    ((data = none ∨ size = 0) →
      aux.cbCalls (aux.ExecCb env data size err).2 = [([], err)]) ∧
    aux.cbCalls (SvgToImage ⟨true, true, 3, 4, true, true, some [], true, false⟩
        [1] 0 0 0 0) = [([], Error.None)] := by
  refine ⟨?_, ?_, by decide⟩
  · rintro buf rfl hs
    unfold aux.ExecCb
    cases hct : env.cbThrows <;>
      simp [hct, hs, aux.cbCalls_cons, aux.cbCalls_nil]
  · rintro (rfl | rfl)
    · unfold aux.ExecCb
      cases hct : env.cbThrows <;>
        simp [hct, aux.cbCalls_cons, aux.cbCalls_nil]
    · unfold aux.ExecCb
      rcases data with _ | buf <;> cases hct : env.cbThrows <;>
        simp [hct, aux.cbCalls_cons, aux.cbCalls_nil]

/-- C9 witness: the theorem applied at a non-null buffer with positive
size and at a null buffer with size zero. -/
theorem ExecCb_view_rule_witness :
    aux.cbCalls (aux.ExecCb ⟨true, true, 3, 4, true, true, some [7], true, false⟩
        (some [5, 6]) 2 Error.None).2 = [(([5, 6] : List Byte).take 2, Error.None)] ∧
    aux.cbCalls (aux.ExecCb ⟨true, true, 3, 4, true, true, some [7], true, false⟩
        none 0 Error.BlobExportFailed).2 = [([], Error.BlobExportFailed)] :=
  ⟨(ExecCb_view_rule _ _ _ _).1 [5, 6] rfl (by decide),
    (ExecCb_view_rule _ _ _ _).2.1 (Or.inl rfl)⟩

end raster
